import Mathlib

/-!
Verification of the producer/consumer image pipeline in `src/main.cpp`.

The development shallowly embeds the program's core:
* `SafeQueue` (a `std::deque` guarded by a mutex and condition variable) becomes
  a `List` together with pure `push`/`pop` functions;
* the global atomic counters and the `running` flag become fields of `SysState`;
* one loop iteration of `imageProducer` / `imageConsumer`, and the coordinator's
  shutdown, become `Event`s acting on `SysState` through `step`;
* `main`'s argument validation becomes `validateAndStart`;
* the producer's pacing arithmetic becomes `tickIntervalMs` / `iterationWakeTime`;
* the consumer's output filename becomes `filename`, with `std::to_string`
  modelled by `natToString` (decimal rendering via `Nat.digits`).
-/

namespace Siss

/-- `const size_t MAX_QUEUE_SIZE = 200;` (src/main.cpp line 30). -/
def MAX_QUEUE_SIZE : Nat := 200

/-- `SafeQueue::push` (src/main.cpp lines 50-57): under the lock, if
`queue.size() >= cap` then `queue.pop_front()`, then `queue.emplace_back(value)`.
The source fixes `cap = MAX_QUEUE_SIZE`; the capacity is kept as a parameter so
statements can quantify over it. -/
def push (cap : Nat) (q : List α) (v : α) : List α :=
  (if cap ≤ q.length then q.drop 1 else q) ++ [v]

/-- Outcome of one call to `SafeQueue::pop`. -/
inductive PopResult (α : Type) where
  /-- the `cv.wait` predicate `!queue.empty() || !running.load()` is false:
  the caller stays blocked. -/
  | blocked : PopResult α
  /-- the wait predicate holds and the queue is empty: `return false`. -/
  | stopped : PopResult α
  /-- the queue is non-empty: move out `queue.front()`, `pop_front`, `return true`. -/
  | popped (v : α) (rest : List α) : PopResult α
deriving Repr, DecidableEq

/-- `SafeQueue::pop` (src/main.cpp lines 65-73): wait until the queue is
non-empty or `running` is false; then return `false` if the queue is empty,
otherwise remove and return the front element. -/
def pop : List α → Bool → PopResult α
  | [], true => .blocked
  | [], false => .stopped
  | v :: rest, _ => .popped v rest

/-- Repeatedly `pop` a closed channel (`running = false`), collecting the
successfully popped values, stopping at the first non-`popped` result. -/
def drainClosed : Nat → List α → List α
  | 0, _ => []
  | fuel + 1, q =>
    match pop q false with
    | .popped v rest => v :: drainClosed fuel rest
    | _ => []

/-- The queue contents left after `fuel` pop attempts on a closed channel. -/
def drainState : Nat → List α → List α
  | 0, q => q
  | fuel + 1, q =>
    match pop q false with
    | .popped _ rest => drainState fuel rest
    | _ => q

/-- Push a whole list of items in order (no interleaved pops). -/
def pushAll (cap : Nat) (q : List α) (items : List α) : List α :=
  items.foldl (push cap) q

/-- The last `n` elements of a list, in order. -/
def takeLast (n : Nat) (l : List α) : List α :=
  l.drop (l.length - n)

lemma takeLast_of_length_le {l : List α} {n : Nat} (h : l.length ≤ n) :
    takeLast n l = l := by
  simp [takeLast, Nat.sub_eq_zero_of_le h]

lemma takeLast_cons {l : List α} {n : Nat} (a : α) (h : n ≤ l.length) :
    takeLast n (a :: l) = takeLast n l := by
  have h1 : (a :: l).length - n = (l.length - n) + 1 := by
    simp only [List.length_cons]; omega
  rw [takeLast, takeLast, h1, List.drop_succ_cons]

lemma push_length_le_succ (cap : Nat) (q : List α) (v : α) :
    (push cap q v).length ≤ q.length + 1 := by
  simp only [push]
  split <;> simp

lemma push_length_le (cap : Nat) (hcap : 1 ≤ cap) (q : List α) (v : α)
    (hq : q.length ≤ cap) : (push cap q v).length ≤ cap := by
  simp only [push]
  split <;> simp <;> omega

lemma pushAll_eq_takeLast (cap : Nat) (hcap : 1 ≤ cap) :
    ∀ (items q : List α), q.length ≤ cap →
      pushAll cap q items = takeLast cap (q ++ items) := by
  intro items
  induction items with
  | nil =>
    intro q hq
    simpa [pushAll] using (takeLast_of_length_le hq).symm
  | cons x items ih =>
    intro q hq
    have hstep : pushAll cap q (x :: items) = pushAll cap (push cap q x) items := rfl
    rw [hstep, ih (push cap q x) (push_length_le cap hcap q x hq)]
    by_cases hc : cap ≤ q.length
    · have hlen : q.length = cap := le_antisymm hq hc
      cases q with
      | nil => simp at hlen; omega
      | cons y t =>
        have hpush : push cap (y :: t) x = t ++ [x] := by
          simp only [push, if_pos hc, List.drop_succ_cons, List.drop_zero]
        rw [hpush]
        have h1 : (t ++ [x]) ++ items = t ++ x :: items := by simp
        have h2 : cap ≤ (t ++ x :: items).length := by
          have ht : t.length + 1 = cap := by simpa using hlen
          simp only [List.length_append, List.length_cons]
          omega
        rw [h1, List.cons_append, takeLast_cons y h2]
    · have hpush : push cap q x = q ++ [x] := by
        simp [push, hc]
      rw [hpush]
      simp

lemma pop_popped {q : List α} {running : Bool} {v : α} {rest : List α}
    (h : pop q running = .popped v rest) : q = v :: rest := by
  cases q with
  | nil => cases running <;> simp [pop] at h
  | cons x xs =>
    simp [pop] at h
    simp [h.1, h.2]

/-- C2: `pop` returns `ok = false` iff the channel is closed (`running = false`)
and the queue is empty; on a closed non-empty channel it still removes and
returns the oldest element; and a closed channel holding `k` buffered items
yields exactly those `k` items through `k` successful pops, after which the
queue is empty and the next pop returns `ok = false`. -/
theorem C2_pop_false_iff_closed_and_empty :
    (∀ (q : List Nat) (running : Bool),
      pop q running = PopResult.stopped ↔ running = false ∧ q = []) ∧
    (∀ (v : Nat) (rest : List Nat) (running : Bool),
      pop (v :: rest) running = PopResult.popped v rest) ∧
    (∀ q : List Nat,
      drainClosed q.length q = q ∧
      drainState q.length q = [] ∧
      pop (drainState q.length q) false = PopResult.stopped) := by
  refine ⟨?_, ?_, ?_⟩
  · intro q running
    cases q <;> cases running <;> simp [pop]
  · intro v rest running
    cases running <;> simp [pop]
  · intro q
    induction q with
    | nil => simp [drainClosed, drainState, pop]
    | cons x xs ih =>
      refine ⟨?_, ?_, ?_⟩
      · simpa [drainClosed, pop] using ih.1
      · simpa [drainState, pop] using ih.2.1
      · simpa [drainState, pop] using ih.2.2

/-- C2 witness: a closed channel holding `[7, 8, 9]` drains to exactly those
three items, then reports `stopped`. -/
theorem C2_witness :
    pop ([] : List Nat) false = PopResult.stopped ∧ (false = false ∧ ([] : List Nat) = []) ∧
    drainClosed ([7, 8, 9] : List Nat).length [7, 8, 9] = [7, 8, 9] ∧
    drainState ([7, 8, 9] : List Nat).length [7, 8, 9] = [] := by
  refine ⟨?_, ⟨rfl, rfl⟩, ?_, ?_⟩
  · exact (C2_pop_false_iff_closed_and_empty.1 [] false).mpr ⟨rfl, rfl⟩
  · exact (C2_pop_false_iff_closed_and_empty.2.2 [7, 8, 9]).1
  · exact (C2_pop_false_iff_closed_and_empty.2.2 [7, 8, 9]).2.1

/-- C3: for any capacity `C ≥ 1`, pushing `n > C` items into the empty channel
with no interleaved pops leaves exactly the last `C` pushed items, in original
push order. -/
theorem C3_drop_oldest_invariant (cap : Nat) (items : List Nat)
    (hcap : 1 ≤ cap) (hlen : cap < items.length) :
    pushAll cap ([] : List Nat) items = takeLast cap items ∧
    (pushAll cap ([] : List Nat) items).length = cap := by
  have h := pushAll_eq_takeLast cap hcap items [] (by simp)
  simp at h
  refine ⟨h, ?_⟩
  rw [h]
  simp [takeLast]
  omega

/-- C3 witness: capacity 3, pushing five items `0,1,2,3,4` leaves `[2,3,4]`
(scenario A of the spec with `A..E` rendered as `0..4`). -/
theorem C3_witness :
    pushAll 3 ([] : List Nat) [0, 1, 2, 3, 4] = takeLast 3 [0, 1, 2, 3, 4] ∧
    pushAll 3 ([] : List Nat) [0, 1, 2, 3, 4] = [2, 3, 4] := by
  refine ⟨(C3_drop_oldest_invariant 3 [0, 1, 2, 3, 4] (by decide) (by decide)).1, by decide⟩

/-- C9: below capacity, `push` appends the new item at the back, keeps every
existing element in order, and grows the length by exactly one; at capacity, it
removes only the oldest element and appends the new one, keeping the relative
order of the remaining elements. -/
theorem C9_push_frame (cap : Nat) (q : List Nat) (v : Nat) :
    (q.length < cap → push cap q v = q ++ [v] ∧
      (push cap q v).length = q.length + 1) ∧
    (q.length = cap → push cap q v = q.drop 1 ++ [v]) := by
  constructor
  · intro h
    have : ¬ cap ≤ q.length := by omega
    simp [push, this]
  · intro h
    have : cap ≤ q.length := by omega
    simp [push, this]

/-- C9 witness: with capacity 2, pushing into `[10]` appends, and pushing into
`[10, 11]` evicts `10` only. -/
theorem C9_witness :
    push 2 ([10] : List Nat) 12 = [10, 12] ∧
    push 2 ([10, 11] : List Nat) 12 = [11, 12] := by
  refine ⟨?_, ?_⟩
  · have h := (C9_push_frame 2 [10] 12).1 (by decide)
    simpa using h.1
  · have h := (C9_push_frame 2 [10, 11] 12).2 (by decide)
    simpa using h

/-- An operation on the shared queue: a producer `push` or a consumer `pop`
attempt made while the running flag has the given value. -/
inductive QueueOp (α : Type) where
  | push (v : α) : QueueOp α
  | pop (running : Bool) : QueueOp α
deriving Repr, DecidableEq

/-- Apply one queue operation with the source's capacity `MAX_QUEUE_SIZE`; a
blocked or stopped pop leaves the queue unchanged. -/
def applyOp (q : List α) : QueueOp α → List α
  | .push v => push MAX_QUEUE_SIZE q v
  | .pop running =>
    match pop q running with
    | .popped _ rest => rest
    | _ => q

/-- Run a sequence of queue operations. -/
def runOps (q : List α) (ops : List (QueueOp α)) : List α :=
  ops.foldl applyOp q

lemma applyOp_length_le {q : List α} (op : QueueOp α)
    (hq : q.length ≤ MAX_QUEUE_SIZE) : (applyOp q op).length ≤ MAX_QUEUE_SIZE := by
  cases op with
  | push v => exact push_length_le MAX_QUEUE_SIZE (by decide) q v hq
  | pop running =>
    cases q with
    | nil => cases running <;> simp [applyOp, pop]
    | cons x xs =>
      simp only [applyOp, pop]
      simp at hq ⊢
      omega

lemma runOps_length_le : ∀ (ops : List (QueueOp α)) (q : List α),
    q.length ≤ MAX_QUEUE_SIZE → (runOps q ops).length ≤ MAX_QUEUE_SIZE := by
  intro ops
  induction ops with
  | nil => intro q hq; simpa [runOps] using hq
  | cons op ops ih =>
    intro q hq
    exact ih (applyOp q op) (applyOp_length_le op hq)

/-- C4: the queue's length never exceeds `MAX_QUEUE_SIZE`: each single push or
pop preserves the bound, and hence any sequence of pushes and pops starting
from the empty queue keeps the length within the bound at all times. -/
theorem C4_length_bounded :
    (∀ (q : List Nat) (op : QueueOp Nat), q.length ≤ MAX_QUEUE_SIZE →
      (applyOp q op).length ≤ MAX_QUEUE_SIZE) ∧
    (∀ ops : List (QueueOp Nat), (runOps ([] : List Nat) ops).length ≤ MAX_QUEUE_SIZE) := by
  constructor
  · intro q op hq
    exact applyOp_length_le op hq
  · intro ops
    exact runOps_length_le ops [] (by simp)

/-- C4 witness: a concrete push on a queue of length 1 stays within the bound. -/
theorem C4_witness :
    ([5] : List Nat).length ≤ MAX_QUEUE_SIZE ∧
    (applyOp ([5] : List Nat) (QueueOp.push 6)).length ≤ MAX_QUEUE_SIZE := by
  refine ⟨by decide, ?_⟩
  exact C4_length_bounded.1 [5] (QueueOp.push 6) (by decide)

/-! ### The full pipeline state

`SysState` gathers the globals of src/main.cpp lines 91-95: the shared
`imageQueue`, the `running` flag, and the atomic counters `imagesGenerated`,
`imagesSaved` and `totalBytesWritten`. Payloads (`cv::Mat` images) are opaque
and are represented by `Nat` identifiers; byte counts (`size_t`) are `Nat`. -/
structure SysState where
  queue : List Nat
  running : Bool
  imagesGenerated : Nat
  imagesSaved : Nat
  totalBytesWritten : Nat
deriving Repr, DecidableEq

/-- One atomic step of the pipeline, under an interleaving semantics. -/
inductive Event where
  /-- one iteration of the `imageProducer` loop body (lines 119-135): generate
  an image, push it, increment `imagesGenerated`; a producer scheduled after
  `running` became false exits its loop instead. -/
  | produce (img : Nat) : Event
  /-- one iteration of an `imageConsumer` loop body (lines 148-165): `pop`;
  on success take `index = imagesSaved.fetch_add(1)`, then attempt the sink
  (`cv::imencode` succeeding is `encodeOk`, the `std::ofstream` opening is
  `fileOk`, `buffer.size()` is `bufSize`), adding `bufSize` to
  `totalBytesWritten` only when both succeed. -/
  | consume (encodeOk : Bool) (fileOk : Bool) (bufSize : Nat) : Event
  /-- the coordinator's `running.store(false)` (line 224). -/
  | shutdown : Event
deriving Repr, DecidableEq

/-- The transition function of the pipeline. -/
def step (s : SysState) : Event → SysState
  | .produce img =>
    if s.running then
      { s with queue := push MAX_QUEUE_SIZE s.queue img,
               imagesGenerated := s.imagesGenerated + 1 }
    else s
  | .consume encodeOk fileOk bufSize =>
    match pop s.queue s.running with
    | .popped _ rest =>
      { s with queue := rest,
               imagesSaved := s.imagesSaved + 1,
               totalBytesWritten := s.totalBytesWritten +
                 (if encodeOk && fileOk then bufSize else 0) }
    | _ => s
  | .shutdown => { s with running := false }

/-- The state at program start: empty queue, `running = true`, all counters 0. -/
def initState : SysState :=
  { queue := [], running := true, imagesGenerated := 0, imagesSaved := 0,
    totalBytesWritten := 0 }

/-- Run a trace of events. -/
def runTrace (s : SysState) (es : List Event) : SysState :=
  es.foldl step s

/-- Saved images plus queued images never exceed generated images. -/
def counterInv (s : SysState) : Prop :=
  s.imagesSaved + s.queue.length ≤ s.imagesGenerated

lemma step_counterInv {s : SysState} (e : Event) (h : counterInv s) :
    counterInv (step s e) := by
  cases e with
  | produce img =>
    simp only [step]
    split
    · have := push_length_le_succ MAX_QUEUE_SIZE s.queue img
      simp only [counterInv] at h ⊢
      omega
    · exact h
  | consume encodeOk fileOk bufSize =>
    simp only [step]
    cases hp : pop s.queue s.running with
    | blocked => exact h
    | stopped => exact h
    | popped v rest =>
      have hq : s.queue = v :: rest := pop_popped hp
      simp only [counterInv] at h ⊢
      rw [hq] at h
      simp at h
      omega
  | shutdown => exact h

lemma runTrace_counterInv : ∀ (es : List Event) (s : SysState),
    counterInv s → counterInv (runTrace s es) := by
  intro es
  induction es with
  | nil => intro s h; exact h
  | cons e es ih =>
    intro s h
    exact ih (step s e) (step_counterInv e h)

lemma step_mono (s : SysState) (e : Event) :
    s.imagesGenerated ≤ (step s e).imagesGenerated ∧
    s.imagesSaved ≤ (step s e).imagesSaved ∧
    s.totalBytesWritten ≤ (step s e).totalBytesWritten := by
  cases e with
  | produce img =>
    simp only [step]
    split <;> simp
  | consume encodeOk fileOk bufSize =>
    simp only [step]
    cases hp : pop s.queue s.running <;> simp
  | shutdown => simp [step]

/-- C7: every step leaves each of `imagesGenerated`, `imagesSaved` and
`totalBytesWritten` no smaller than before (each update adds a non-negative
amount), and after any trace of events from the initial state,
`imagesSaved ≤ imagesGenerated`. -/
theorem C7_counter_monotone_saved_le_produced :
    (∀ (s : SysState) (e : Event),
      s.imagesGenerated ≤ (step s e).imagesGenerated ∧
      s.imagesSaved ≤ (step s e).imagesSaved ∧
      s.totalBytesWritten ≤ (step s e).totalBytesWritten) ∧
    (∀ es : List Event,
      (runTrace initState es).imagesSaved ≤ (runTrace initState es).imagesGenerated) := by
  constructor
  · exact step_mono
  · intro es
    have h := runTrace_counterInv es initState (by simp [counterInv, initState])
    simp only [counterInv] at h
    omega

/-- C1 counterexample: in a state with one queued payload, a consume step whose
sink fails (`cv::imencode` returns false) still increments `imagesSaved` — the
claim that a payload with a failing sink is "never saved" (saved counter left
unchanged) is false on the code, because `imagesSaved.fetch_add(1)` runs
unconditionally before the encode attempt. -/
theorem C1_counterexample_failed_sink_still_saved :
    ¬ ((step { queue := [5], running := true, imagesGenerated := 1,
               imagesSaved := 0, totalBytesWritten := 0 }
          (Event.consume false false 0)).imagesSaved = 0) := by
  decide

/-- C1 (amended): for every payload a worker pops, the worker increments
`imagesSaved` unconditionally (the counter doubles as the sequence-number
source), and adds the sink's byte count to `totalBytesWritten` only when the
sink operation (encode and write) succeeds; a payload whose sink fails thus
contributes no bytes but is still counted by `imagesSaved`. -/
theorem C1_saved_unconditional_bytes_conditional (s : SysState)
    (encodeOk fileOk : Bool) (bufSize : Nat) (v : Nat) (rest : List Nat)
    (hp : pop s.queue s.running = PopResult.popped v rest) :
    (step s (Event.consume encodeOk fileOk bufSize)).imagesSaved =
      s.imagesSaved + 1 ∧
    (step s (Event.consume encodeOk fileOk bufSize)).totalBytesWritten =
      s.totalBytesWritten + (if encodeOk && fileOk then bufSize else 0) := by
  simp [step, hp]

/-- C1 witness: a concrete popped payload with a failing encode is counted by
`imagesSaved` and adds no bytes. -/
theorem C1_amended_witness :
    pop ([5] : List Nat) true = PopResult.popped 5 [] ∧
    (step { queue := [5], running := true, imagesGenerated := 1,
            imagesSaved := 0, totalBytesWritten := 0 }
       (Event.consume false false 0)).imagesSaved = 0 + 1 ∧
    (step { queue := [5], running := true, imagesGenerated := 1,
            imagesSaved := 0, totalBytesWritten := 0 }
       (Event.consume false false 0)).totalBytesWritten =
      0 + (if false && false then 0 else 0) := by
  refine ⟨rfl, ?_, ?_⟩
  · exact (C1_saved_unconditional_bytes_conditional
      { queue := [5], running := true, imagesGenerated := 1,
        imagesSaved := 0, totalBytesWritten := 0 } false false 0 5 [] rfl).1
  · exact (C1_saved_unconditional_bytes_conditional
      { queue := [5], running := true, imagesGenerated := 1,
        imagesSaved := 0, totalBytesWritten := 0 } false false 0 5 [] rfl).2

/-- C10: for each successfully popped payload, `totalBytesWritten` grows by
exactly the encoded buffer's size when both the JPEG encode succeeds and the
output file opens, and is left unchanged on any encode or open failure. -/
theorem C10_bytes_only_on_success (s : SysState)
    (encodeOk fileOk : Bool) (bufSize : Nat) (v : Nat) (rest : List Nat)
    (hp : pop s.queue s.running = PopResult.popped v rest) :
    ((encodeOk && fileOk) = true →
      (step s (Event.consume encodeOk fileOk bufSize)).totalBytesWritten =
        s.totalBytesWritten + bufSize) ∧
    ((encodeOk && fileOk) = false →
      (step s (Event.consume encodeOk fileOk bufSize)).totalBytesWritten =
        s.totalBytesWritten) := by
  constructor
  · intro hok
    simp [step, hp, hok]
  · intro hfail
    simp [step, hp, hfail]

/-- C10 witness: concrete success and failure cases. -/
theorem C10_witness :
    (step { queue := [5], running := true, imagesGenerated := 1,
            imagesSaved := 0, totalBytesWritten := 10 }
       (Event.consume true true 7)).totalBytesWritten = 10 + 7 ∧
    (step { queue := [5], running := true, imagesGenerated := 1,
            imagesSaved := 0, totalBytesWritten := 10 }
       (Event.consume true false 7)).totalBytesWritten = 10 := by
  constructor
  · exact (C10_bytes_only_on_success
      { queue := [5], running := true, imagesGenerated := 1,
        imagesSaved := 0, totalBytesWritten := 10 } true true 7 5 [] rfl).1 rfl
  · exact (C10_bytes_only_on_success
      { queue := [5], running := true, imagesGenerated := 1,
        imagesSaved := 0, totalBytesWritten := 10 } true false 7 5 [] rfl).2 rfl

/-! ### Output filenames (src/main.cpp line 155)

`std::string filename = outputDir + "/img_" + std::to_string(index) + ".jpg";`
`std::to_string` produces the decimal representation of the index; it is
modelled by `natToString` below via `Nat.digits`. -/

/-- Little-endian decimal digit list of `n`, with `0` rendered as the single
digit `0`, as the decimal representation printed by `std::to_string`. -/
def decimalDigitsRev (n : Nat) : List Nat :=
  if n = 0 then [0] else Nat.digits 10 n

/-- The decimal string `std::to_string(n)` produces. -/
def natToString (n : Nat) : String :=
  String.mk (((decimalDigitsRev n).map Nat.digitChar).reverse)

/-- `const std::string outputDir = "../output";` (src/main.cpp line 29). -/
def outputDir : String := "../output"

/-- The output filename a worker builds for sequence number `index`. -/
def filename (index : Nat) : String :=
  outputDir ++ "/img_" ++ natToString index ++ ".jpg"

lemma decimalDigitsRev_lt_ten (n : Nat) : ∀ d ∈ decimalDigitsRev n, d < 10 := by
  intro d hd
  unfold decimalDigitsRev at hd
  by_cases hn : n = 0
  · rw [if_pos hn] at hd
    simp at hd
    omega
  · rw [if_neg hn] at hd
    exact Nat.digits_lt_base (by norm_num) hd

lemma decimalDigitsRev_injective : Function.Injective decimalDigitsRev := by
  intro a b h
  unfold decimalDigitsRev at h
  by_cases ha : a = 0 <;> by_cases hb : b = 0
  · rw [ha, hb]
  · rw [if_pos ha, if_neg hb] at h
    have h0 := congrArg (Nat.ofDigits 10) h
    rw [Nat.ofDigits_digits, Nat.ofDigits_singleton] at h0
    omega
  · rw [if_neg ha, if_pos hb] at h
    have h0 := congrArg (Nat.ofDigits 10) h
    rw [Nat.ofDigits_digits, Nat.ofDigits_singleton] at h0
    omega
  · rw [if_neg ha, if_neg hb] at h
    exact Nat.digits.injective 10 h

lemma digitChar_inj_below_ten :
    ∀ a, a < 10 → ∀ b, b < 10 → Nat.digitChar a = Nat.digitChar b → a = b := by
  decide

lemma map_digitChar_inj : ∀ l1 l2 : List Nat,
    (∀ d ∈ l1, d < 10) → (∀ d ∈ l2, d < 10) →
    l1.map Nat.digitChar = l2.map Nat.digitChar → l1 = l2 := by
  intro l1
  induction l1 with
  | nil =>
    intro l2 _ _ h
    cases l2 with
    | nil => rfl
    | cons b t => simp at h
  | cons a t ih =>
    intro l2 h1 h2 h
    cases l2 with
    | nil => simp at h
    | cons b t2 =>
      simp only [List.map_cons, List.cons.injEq] at h
      have hab : a = b :=
        digitChar_inj_below_ten a (h1 a (by simp)) b (h2 b (by simp)) h.1
      have ht : t = t2 :=
        ih t2 (fun d hd => h1 d (by simp [hd])) (fun d hd => h2 d (by simp [hd])) h.2
      rw [hab, ht]

lemma natToString_injective : Function.Injective natToString := by
  intro a b h
  unfold natToString at h
  have hdata : ((decimalDigitsRev a).map Nat.digitChar).reverse =
      ((decimalDigitsRev b).map Nat.digitChar).reverse := congrArg String.data h
  have hmap := List.reverse_injective hdata
  exact decimalDigitsRev_injective
    (map_digitChar_inj _ _ (decimalDigitsRev_lt_ten a) (decimalDigitsRev_lt_ten b) hmap)

lemma filename_injective : Function.Injective filename := by
  intro a b h
  unfold filename at h
  have hd := congrArg String.data h
  simp only [String.data_append, List.append_assoc] at hd
  have h1 := List.append_cancel_left hd
  have h2 := List.append_cancel_left h1
  have h3 := List.append_cancel_right h2
  exact natToString_injective (String.ext h3)

/-- The sequence number an event would assign: a consume step that successfully
pops takes the pre-increment value of `imagesSaved` (the return value of
`imagesSaved.fetch_add(1)`); any other step assigns none. -/
def popIndex (s : SysState) : Event → Option Nat
  | .consume _ _ _ =>
    match pop s.queue s.running with
    | .popped _ _ => some s.imagesSaved
    | _ => none
  | _ => none

/-- All sequence numbers assigned along a trace, in order. -/
def assignedIndices : SysState → List Event → List Nat
  | _, [] => []
  | s, e :: es =>
    match popIndex s e with
    | some i => i :: assignedIndices (step s e) es
    | none => assignedIndices (step s e) es

lemma popIndex_some {s : SysState} {e : Event} {i : Nat}
    (h : popIndex s e = some i) :
    i = s.imagesSaved ∧ (step s e).imagesSaved = s.imagesSaved + 1 := by
  cases e with
  | produce img => simp [popIndex] at h
  | shutdown => simp [popIndex] at h
  | consume encodeOk fileOk bufSize =>
    cases hp : pop s.queue s.running with
    | blocked => simp [popIndex, hp] at h
    | stopped => simp [popIndex, hp] at h
    | popped v rest =>
      simp [popIndex, hp] at h
      exact ⟨h.symm, by simp [step, hp]⟩

lemma popIndex_none {s : SysState} {e : Event}
    (h : popIndex s e = none) : (step s e).imagesSaved = s.imagesSaved := by
  cases e with
  | produce img =>
    simp only [step]
    split <;> rfl
  | shutdown => rfl
  | consume encodeOk fileOk bufSize =>
    cases hp : pop s.queue s.running with
    | blocked => simp [step, hp]
    | stopped => simp [step, hp]
    | popped v rest => simp [popIndex, hp] at h

lemma assignedIndices_eq_range : ∀ (es : List Event) (s : SysState),
    ∃ k, assignedIndices s es = List.range' s.imagesSaved k := by
  intro es
  induction es with
  | nil =>
    intro s
    exact ⟨0, rfl⟩
  | cons e es ih =>
    intro s
    cases hp : popIndex s e with
    | some i =>
      obtain ⟨hi, hsaved⟩ := popIndex_some hp
      obtain ⟨k, hk⟩ := ih (step s e)
      refine ⟨k + 1, ?_⟩
      rw [List.range'_succ]
      simp only [assignedIndices, hp]
      rw [hi, hk, hsaved]
    | none =>
      obtain ⟨k, hk⟩ := ih (step s e)
      refine ⟨k, ?_⟩
      simp only [assignedIndices, hp]
      rw [hk, popIndex_none hp]

/-- C8: along any trace from the initial state, the sequence numbers handed out
by the consume steps (the pre-increment values of the atomic
`imagesSaved.fetch_add(1)`) are pairwise distinct, and therefore the output
filenames built from them are pairwise distinct as well. -/
theorem C8_indices_and_filenames_distinct (es : List Event) :
    (assignedIndices initState es).Nodup ∧
    ((assignedIndices initState es).map filename).Nodup := by
  obtain ⟨k, hk⟩ := assignedIndices_eq_range es initState
  rw [hk]
  exact ⟨List.nodup_range' _ _, (List.nodup_range' _ _).map filename_injective⟩

/-! ### Producer pacing (src/main.cpp lines 113-138) -/

/-- `auto interval = milliseconds(1000 / TARGET_FPS);` (line 115): one second
expressed as 1000 milliseconds, divided by the target rate with integer
(floor) division. -/
def tickIntervalMs (targetFps : Nat) : Nat :=
  1000 / targetFps

/-- `std::this_thread::sleep_until(start + interval);` (line 134): the wake-up
deadline of an iteration whose recorded start time is `start` (in ms). -/
def iterationWakeTime (start targetFps : Nat) : Nat :=
  start + tickIntervalMs targetFps

/-- C5 counterexample: for target rate 3, the tick interval is the integer
333 ms, which is not exactly one second divided by 3 — the claim that the
interval "equals exactly one second divided by R" fails whenever `R` does not
divide 1000. -/
theorem C5_counterexample_interval_not_exact :
    ¬ ((tickIntervalMs 3 : ℚ) = 1000 / 3) := by
  have h3 : tickIntervalMs 3 = 333 := rfl
  rw [h3]
  norm_num

/-- C5 (amended): for every target rate `R > 0`, the tick interval is
`1000 / R` milliseconds rounded down to a whole millisecond (the floor:
`interval * R ≤ 1000 < (interval + 1) * R`), equal to exactly one second
divided by `R` precisely when `R` divides 1000; and each iteration suspends
until its own recorded start time plus that interval. -/
theorem C5_tick_interval_floor (targetFps : Nat) (h : 0 < targetFps) :
    tickIntervalMs targetFps * targetFps ≤ 1000 ∧
    1000 < (tickIntervalMs targetFps + 1) * targetFps ∧
    (targetFps ∣ 1000 → (tickIntervalMs targetFps : ℚ) = 1000 / targetFps) ∧
    (∀ start, iterationWakeTime start targetFps = start + tickIntervalMs targetFps) := by
  refine ⟨Nat.div_mul_le_self 1000 targetFps, ?_, ?_, fun start => rfl⟩
  · have hdm := Nat.div_add_mod 1000 targetFps
    have hm : 1000 % targetFps < targetFps := Nat.mod_lt 1000 h
    calc 1000 = targetFps * (1000 / targetFps) + 1000 % targetFps := hdm.symm
      _ < targetFps * (1000 / targetFps) + targetFps := by omega
      _ = (tickIntervalMs targetFps + 1) * targetFps := by
          unfold tickIntervalMs; ring
  · intro hdvd
    unfold tickIntervalMs
    exact Nat.cast_div hdvd (Nat.cast_ne_zero.mpr (by omega))

/-- C5 witness: at the default rate 50, the interval is 20 ms, exact since 50
divides 1000, and the wake time is start plus interval. -/
theorem C5_witness :
    tickIntervalMs 50 * 50 ≤ 1000 ∧ 1000 < (tickIntervalMs 50 + 1) * 50 ∧
    (tickIntervalMs 50 : ℚ) = 1000 / 50 ∧
    iterationWakeTime 17 50 = 17 + tickIntervalMs 50 := by
  have h := C5_tick_interval_floor 50 (by decide)
  exact ⟨h.1, h.2.1, h.2.2.1 (by decide), h.2.2.2 17⟩

/-! ### Startup validation (src/main.cpp lines 178-202) -/

/-- The validated configuration `main` installs into the globals before
spawning any thread. -/
structure RunConfig where
  durationSeconds : Int
  targetFps : Int
  numConsumers : Int
deriving Repr, DecidableEq

/-- How `main`'s prologue ends: an early `return 1`, or reaching the point
where the producer and consumer threads are spawned. -/
inductive MainOutcome where
  | earlyExit (code : Int) : MainOutcome
  | threadsStarted (cfg : RunConfig) : MainOutcome
deriving Repr, DecidableEq

/-- The argument validation of `main` (lines 179-202): `return 1` when
`argc != 4`, when any of the three parsed integers is non-positive, or when
`consumers > 7`; otherwise install the configuration and proceed to spawn the
threads. -/
def validateAndStart (argc : Nat) (dur fps consumers : Int) : MainOutcome :=
  if argc ≠ 4 then .earlyExit 1
  else if dur ≤ 0 ∨ fps ≤ 0 ∨ consumers ≤ 0 then .earlyExit 1
  else if consumers > 7 then .earlyExit 1
  else .threadsStarted ⟨dur, fps, consumers⟩

/-- C6: with all three arguments present, `main` reaches the thread-spawning
point iff duration > 0, target rate > 0 and `1 ≤ consumers ≤ 7`; on any
violation it exits with a non-zero code before any thread starts. -/
theorem C6_validation_gates_thread_spawn (dur fps consumers : Int) :
    ((∃ cfg, validateAndStart 4 dur fps consumers = MainOutcome.threadsStarted cfg) ↔
      (0 < dur ∧ 0 < fps ∧ 1 ≤ consumers ∧ consumers ≤ 7)) ∧
    (∀ code, validateAndStart 4 dur fps consumers = MainOutcome.earlyExit code →
      code ≠ 0) := by
  unfold validateAndStart
  constructor
  · split_ifs with h1 h2 h3 <;> simp_all <;> omega
  · intro code
    split_ifs <;> simp_all <;> omega

/-- C6 witness: the configuration `300 50 7` starts the run; duration 0 exits
with code 1, which is non-zero. -/
theorem C6_witness :
    validateAndStart 4 300 50 7 =
      MainOutcome.threadsStarted { durationSeconds := 300, targetFps := 50,
                                   numConsumers := 7 } ∧
    validateAndStart 4 0 50 7 = MainOutcome.earlyExit 1 ∧ (1 : Int) ≠ 0 := by
  refine ⟨by decide, by decide, ?_⟩
  exact (C6_validation_gates_thread_spawn 0 50 7).2 1 (by decide)

end Siss
